import Mathlib

/-
  Verification of the aggregation logic of the Databutton code-health
  dashboard (ElleNealAI/databutton-code-health-report).

  The repository is TypeScript; the parts embedded here are the pure
  aggregation functions:

  * `calculateFileAvgScore`  (ui/utils/codeHealthUtils.tsx, ui/pages/CodeHealth.tsx)
    — `Math.round((six sub-scores summed) / 6)`;
  * a second variant of `calculateFileAvgScore` in the history page that
    coalesces absent sub-scores to 0 with `|| 0`;
  * `categorizeFileByPath` — two variants: the history page checks the
    API patterns (including two regexes) first on a path with leading
    slashes stripped, the dashboard page checks `/pages/` first;
  * `processFilesData` (codeHealthUtils.tsx) — builds a previous-score
    index by filepath and attaches `previousScore`/`scoreChange`, using
    the JavaScript `||` fallback (`previousScores[fp] || avgScore`);
  * `calculateFileTrends` (CodeHealth.tsx) — per-filepath score series
    over the whole history, first-vs-last trend;
  * `getFilesGroupedByType` (CodeHealth.tsx) — buckets the latest
    snapshot's files by category and sorts each bucket by score;
  * the accordion rendering (SectionAccordion) — skips empty buckets
    before computing per-bucket averages.

  JavaScript numbers are modelled as `Int` (all values reaching these
  functions are integers per the declared `HealthHistoryEntry`
  interface); `Math.round(x)` is `⌊x + 1/2⌋` (half toward +∞), embedded
  over integers below as `mathRoundDiv`.  Records indexed by string
  (`Record<string, number>`) are modelled as functions
  `String → Option Int`, with assignment as pointwise update, and
  `undefined` lookups as `none`.
-/

namespace CodeHealth

/-- Embedding of JavaScript `Math.round(a / n)` for an integer numerator `a`
and a positive integer denominator `n`.  `Math.round x = ⌊x + 1/2⌋`
(ties round toward +∞), and `⌊a/n + 1/2⌋ = ⌊(2a+n)/(2n)⌋`, which is the
integer floor division below. -/
def mathRoundDiv (a : Int) (n : Nat) : Int :=
  Int.fdiv (2 * a + n) (2 * n)

/- ## Data model

Mirrors the `HealthHistoryEntry` interface declared in
ui/pages/CodeHealth.tsx (and repeated in the other page files). -/

/-- Per-file raw scores, as declared in the `files` member of the
`HealthHistoryEntry` TypeScript interface. -/
structure FileMetrics where
  filepath : String
  size_score : Int
  complexity_score : Int
  duplication_score : Int
  function_length_score : Int
  comment_density_score : Int
  naming_convention_score : Int
  issues : List String
deriving DecidableEq, Repr

/-- A named component grouping of files inside one snapshot. -/
structure ComponentResult where
  name : String
  score : Int
  files : List FileMetrics
  issues : List String
deriving DecidableEq, Repr

/-- The `results` member of a history entry. -/
structure AnalysisResults where
  overall_score : Int
  components : List ComponentResult
  recommendations : List String
deriving DecidableEq, Repr

/-- One completed analysis run (`HealthHistoryEntry`). -/
structure HealthHistoryEntry where
  timestamp : Int
  date : String
  results : AnalysisResults
deriving DecidableEq, Repr

/-- All file entries of a snapshot, across all of its components, in
traversal order.  (Helper used to state claims; the code reaches the same
entries with nested `forEach`/`flatMap` loops.) -/
def entryFiles (e : HealthHistoryEntry) : List FileMetrics :=
  e.results.components.flatMap (fun c => c.files)

/-- Embedding of `calculateFileAvgScore` as written identically in
ui/utils/codeHealthUtils.tsx and ui/pages/CodeHealth.tsx:
`Math.round((size + complexity + duplication + function_length +
comment_density + naming_convention) / 6)`. -/
def calculateFileAvgScore (file : FileMetrics) : Int :=
  mathRoundDiv
    (file.size_score +
     file.complexity_score +
     file.duplication_score +
     file.function_length_score +
     file.comment_density_score +
     file.naming_convention_score) 6

/-- Shorthand for the sum of the six sub-scores. -/
def sumScores (file : FileMetrics) : Int :=
  file.size_score + file.complexity_score + file.duplication_score +
  file.function_length_score + file.comment_density_score +
  file.naming_convention_score

/- ## String utilities

Embeddings of the JavaScript string operations the categorizers use.
Paths are handled as their character lists. -/

/-- Test whether the second list starts with the first (character-exact). -/
def isPrefixL : List Char → List Char → Bool
  | [], _ => true
  | _ :: _, [] => false
  | a :: as, b :: bs => a == b && isPrefixL as bs

/-- Test whether the second list has the first as a contiguous substring.
Embedding of JavaScript `s.includes(pat)`. -/
def containsSub (pat : List Char) : List Char → Bool
  | [] => isPrefixL pat []
  | c :: rest => isPrefixL pat (c :: rest) || containsSub pat rest

/-- JavaScript `filepath.includes(pat)` on `String`s. -/
def strIncludes (s pat : String) : Bool :=
  containsSub pat.data s.data

/-- Holds when `f` accepts some suffix of `s` (including
`s` itself and the empty suffix).  Used to embed unanchored regex
matching: `s.match(re)` is non-null iff the anchored matcher accepts some
suffix start position. -/
def anySuffix (f : List Char → Bool) : List Char → Bool
  | [] => f []
  | c :: rest => f (c :: rest) || anySuffix f rest

end CodeHealth

namespace CodeHealth.Utils

/- ## ui/utils/codeHealthUtils.tsx -/

/-- The `details` record attached to each processed file
(`{ size, complexity, duplication, function_length, comment_density,
naming_convention }`). -/
structure FileDetails where
  size : Int
  complexity : Int
  duplication : Int
  function_length : Int
  comment_density : Int
  naming_convention : Int
deriving DecidableEq, Repr

/-- Copy the six sub-scores of a file into a `details` record. -/
def detailsOf (file : FileMetrics) : FileDetails :=
  { size := file.size_score
    complexity := file.complexity_score
    duplication := file.duplication_score
    function_length := file.function_length_score
    comment_density := file.comment_density_score
    naming_convention := file.naming_convention_score }

/-- The object produced per file by `processFilesData`. -/
structure FileView where
  filepath : String
  score : Int
  previousScore : Int
  scoreChange : Int
  issues : List String
  details : FileDetails
deriving DecidableEq, Repr

/-- One loop iteration of building a `previousScores` record
(`previousScores[file.filepath] = avgScore`): overwrite the map at
`file.filepath` with the file's composite score. -/
def assignScore (m : String → Option Int) (file : FileMetrics) : String → Option Int :=
  fun fp => if fp = file.filepath then some (calculateFileAvgScore file) else m fp

/-- Embedding of the `previousScores` record built by
`previousFiles.forEach(file => { previousScores[file.filepath] = avgScore })`:
a string-indexed map (total function into `Option Int`, `none` for
`undefined`), each iteration overwriting the entry at `file.filepath`. -/
def buildPreviousScores (files : List FileMetrics) : String → Option Int :=
  files.foldl assignScore (fun _ => none)

/-- Embedding of the JavaScript expression `x || d` where `x` is the
result of a record lookup (a number, or `undefined` when the key is
absent) and `d` is a number: `undefined` and the falsy number `0` both
select `d`. -/
def orDefault (x : Option Int) (d : Int) : Int :=
  match x with
  | none => d
  | some v => if v = 0 then d else v

/-- Embedding of `processFilesData(currentFiles, previousFiles?)` from
ui/utils/codeHealthUtils.tsx. -/
def processFilesData (currentFiles : List FileMetrics)
    (previousFiles : Option (List FileMetrics)) : List FileView :=
  let previousScores : String → Option Int :=
    match previousFiles with
    | some pf => buildPreviousScores pf
    | none => fun _ => none
  currentFiles.map (fun file =>
    let avgScore := calculateFileAvgScore file
    let previousScore := orDefault (previousScores file.filepath) avgScore
    let scoreChange := avgScore - previousScore
    { filepath := file.filepath
      score := avgScore
      previousScore := previousScore
      scoreChange := scoreChange
      issues := file.issues
      details := detailsOf file })

end CodeHealth.Utils

namespace CodeHealth.History

/- ## The history page variant (src/unnamed/part_000)

This page carries its own `calculateFileAvgScore` that coalesces each
absent sub-score to 0 with `|| 0`, and its own `categorizeFileByPath`
that strips leading slashes and checks the API patterns first. -/

/-- Per-file scores as the history page's `calculateFileAvgScore` treats
them: each of the six sub-score fields may be absent (`undefined` in the
incoming JSON), which `score || 0` coalesces to 0. -/
structure FileMetricsOpt where
  filepath : String
  size_score : Option Int
  complexity_score : Option Int
  duplication_score : Option Int
  function_length_score : Option Int
  comment_density_score : Option Int
  naming_convention_score : Option Int
  issues : List String
deriving DecidableEq, Repr

/-- Replace every absent sub-score by 0, yielding the plain record the
shared `calculateFileAvgScore` operates on. -/
def zeroFilled (file : FileMetricsOpt) : FileMetrics :=
  { filepath := file.filepath
    size_score := file.size_score.getD 0
    complexity_score := file.complexity_score.getD 0
    duplication_score := file.duplication_score.getD 0
    function_length_score := file.function_length_score.getD 0
    comment_density_score := file.comment_density_score.getD 0
    naming_convention_score := file.naming_convention_score.getD 0
    issues := file.issues }

/-- Embedding of the history page's `calculateFileAvgScore`:
builds `scores = [size_score || 0, ..., naming_convention_score || 0]`
and returns `Math.round(scores.reduce((a, b) => a + b, 0) / scores.length)`. -/
def calculateFileAvgScore (file : FileMetricsOpt) : Int :=
  let scores : List Int :=
    [file.size_score.getD 0,
     file.complexity_score.getD 0,
     file.duplication_score.getD 0,
     file.function_length_score.getD 0,
     file.comment_density_score.getD 0,
     file.naming_convention_score.getD 0]
  mathRoundDiv (scores.foldl (fun a b => a + b) 0) scores.length

/-- Embedding of `filepath.replace(/^\/+/, '')`. -/
def stripLeadingSlashes : List Char → List Char
  | [] => []
  | c :: rest => if c = '/' then stripLeadingSlashes rest else c :: rest

/-- Anchored matcher for the regex `api\/[^\/]+`: the list starts with
`api/` followed by at least one non-slash character. -/
def startsApiSeg : List Char → Bool
  | 'a' :: 'p' :: 'i' :: '/' :: c :: _ => c != '/'
  | _ => false

/-- Consume the remainder of a `[^\/]+` segment up to and including the
terminating `/`, returning what follows. -/
def skipSegSlash : List Char → Option (List Char)
  | [] => none
  | c :: rest => if c = '/' then some rest else skipSegSlash rest

/-- Consume `[^\/]+\/` (at least one non-slash character, then a slash),
returning what follows. -/
def segThen (s : List Char) : Option (List Char) :=
  match s with
  | [] => none
  | c :: rest => if c = '/' then none else skipSegSlash rest

/-- Anchored matcher for the tail `__init__.py` of the first API regex;
the `.` before `py` is an unescaped regex dot and matches any character. -/
def matchInitAnyPy : List Char → Bool
  | '_' :: '_' :: 'i' :: 'n' :: 'i' :: 't' :: '_' :: '_' :: _ :: 'p' :: 'y' :: _ => true
  | _ => false

/-- Anchored matcher for the regex `apis\/[^\/]+\/__init__.py`. -/
def startsApisInit (s : List Char) : Bool :=
  if isPrefixL "apis/".data s then
    match segThen (s.drop 5) with
    | some rest => matchInitAnyPy rest
    | none => false
  else false

/-- Anchored matcher for the regex `apis\/[^\/]+\/.*\.py`: after the
segment, `.*\.py` accepts any tail containing the literal `.py`. -/
def startsApisPy (s : List Char) : Bool :=
  if isPrefixL "apis/".data s then
    match segThen (s.drop 5) with
    | some rest => containsSub ".py".data rest
    | none => false
  else false

/-- The API-detection condition of the history page's
`categorizeFileByPath`, evaluated on the normalized (leading-slash
stripped) path: the exact disjunction of the seven checks in the source,
in source order. -/
def isApiIndicating (normalizedPath : List Char) : Bool :=
  containsSub "app/apis/".data normalizedPath ||
  containsSub "src/app/apis/".data normalizedPath ||
  containsSub "apis/".data normalizedPath ||
  anySuffix startsApisInit normalizedPath ||
  anySuffix startsApisPy normalizedPath ||
  anySuffix startsApiSeg normalizedPath ||
  containsSub "/api/".data normalizedPath

/-- Embedding of the history page's `categorizeFileByPath`: strip leading
slashes, check the API patterns first, then `/pages/`, `/components/`,
`/utils/` or `/src/utils/`, defaulting to `"Other"`. -/
def categorizeFileByPath (filepath : String) : String :=
  let normalizedPath := stripLeadingSlashes filepath.data
  if isApiIndicating normalizedPath then "API Files"
  else if containsSub "/pages/".data normalizedPath then "Pages"
  else if containsSub "/components/".data normalizedPath then "Components"
  else if containsSub "/utils/".data normalizedPath ||
          containsSub "/src/utils/".data normalizedPath then "UI Files"
  else "Other"

/- ## SectionAccordion (src/unnamed/part_000) -/

/-- Embedding of `v || d` for two numbers: the falsy number 0 selects the
default (`file.previousScore || file.score`). -/
def jsOrInt (v d : Int) : Int :=
  if v = 0 then d else v

/-- What the accordion renders per non-empty section: the heading data
computed before the file table. -/
structure SectionSummary where
  name : String
  fileCount : Nat
  avgScore : Int
  avgPrevScore : Int
  scoreChange : Int
deriving DecidableEq, Repr

/-- Embedding of the `SectionAccordion` body:
`Object.entries(sections).map(([section, files]) => { if
(files.length === 0) return null; ... })` — a `null` React child renders
nothing, so the produced accordion items are the `filterMap` below. -/
def renderSections (sections : List (String × List Utils.FileView)) :
    List SectionSummary :=
  sections.filterMap (fun p =>
    let files := p.2
    if files.length = 0 then none
    else
      let sectionAvgScore :=
        mathRoundDiv (files.foldl (fun sum file => sum + file.score) 0) files.length
      let sectionAvgPrevScore :=
        mathRoundDiv
          (files.foldl (fun sum file => sum + jsOrInt file.previousScore file.score) 0)
          files.length
      some
        { name := p.1
          fileCount := files.length
          avgScore := sectionAvgScore
          avgPrevScore := sectionAvgPrevScore
          scoreChange := sectionAvgScore - sectionAvgPrevScore })

end CodeHealth.History

namespace CodeHealth.Dashboard

/- ## ui/pages/CodeHealth.tsx -/

/-- Embedding of the dashboard page's `categorizeFileByPath`: `/pages/`
first, then `/components/`, `/utils/` or `/src/utils/`, then the API
patterns (`/apis/`, `/api/`, `src/app/apis/`), defaulting to `"Other"`. -/
def categorizeFileByPath (filepath : String) : String :=
  if strIncludes filepath "/pages/" then "Pages"
  else if strIncludes filepath "/components/" then "Components"
  else if strIncludes filepath "/utils/" || strIncludes filepath "/src/utils/" then "UI Files"
  else if strIncludes filepath "/apis/" || strIncludes filepath "/api/" ||
          strIncludes filepath "src/app/apis/" then "API Files"
  else "Other"

/- ### calculateFileTrends -/

/-- Trend direction. -/
inductive TrendDir where
  | up
  | down
  | neutral
deriving DecidableEq, Repr

/-- One entry of the `fileTrends` record. -/
structure FileTrend where
  trend : TrendDir
  change : Int
deriving DecidableEq, Repr

/-- One loop iteration of building the `fileScores` record
(`fileScores[filepath].push(score)`, creating the array first when
absent): append the file's composite score at its filepath. -/
def pushScore (m : String → List Int) (file : FileMetrics) : String → List Int :=
  fun fp =>
    if fp = file.filepath then m fp ++ [calculateFileAvgScore file] else m fp

/-- Embedding of the `fileScores` record built by the triple `forEach`
in `calculateFileTrends`: per filepath, the composite scores of every
occurrence across the whole history, pushed in traversal order. -/
def collectFileScores (healthHistory : List HealthHistoryEntry) : String → List Int :=
  healthHistory.foldl
    (fun m entry =>
      entry.results.components.foldl
        (fun m component => component.files.foldl pushScore m)
        m)
    (fun _ => [])

/-- Embedding of `calculateFileTrends` from ui/pages/CodeHealth.tsx.
Returns the `fileTrends` record as a map; a filepath that never got an
entry (no scores, or fewer than two) looks up to `none` (`undefined`).
`scores[0]` and `scores[scores.length - 1]` are taken under the
`scores.length > 1` guard, so the `headD`/`getLastD` defaults are
unreachable. -/
def calculateFileTrends (healthHistory : List HealthHistoryEntry) :
    String → Option FileTrend :=
  if healthHistory.length ≤ 1 then fun _ => none
  else
    let fileScores := collectFileScores healthHistory
    fun fp =>
      let scores := fileScores fp
      if 1 < scores.length then
        let firstScore := scores.headD 0
        let latestScore := scores.getLastD 0
        let change := latestScore - firstScore
        some
          { trend :=
              if 0 < change then TrendDir.up
              else if change < 0 then TrendDir.down
              else TrendDir.neutral
            change := change }
      else none

/- ### getFilesGroupedByType -/

/-- The per-file object pushed into a bucket: the spread `...file`
(kept whole in the `file` field) plus the computed fields. -/
structure GroupedFile where
  file : FileMetrics
  score : Int
  previousScore : Int
  scoreChange : Int
  component : String
  details : Utils.FileDetails
deriving DecidableEq, Repr

/-- The `allFiles` record with its five fixed categories. -/
structure Buckets where
  pages : List GroupedFile
  components : List GroupedFile
  uiFiles : List GroupedFile
  apiFiles : List GroupedFile
  other : List GroupedFile
deriving DecidableEq, Repr

/-- The five empty buckets `allFiles` starts from (also the `{}` returned
for an empty history, whose `Object.entries` is likewise empty). -/
def Buckets.empty : Buckets :=
  { pages := [], components := [], uiFiles := [], apiFiles := [], other := [] }

/-- Lookup of `allFiles[category]`. -/
def Buckets.get (b : Buckets) (category : String) : List GroupedFile :=
  if category = "Pages" then b.pages
  else if category = "Components" then b.components
  else if category = "UI Files" then b.uiFiles
  else if category = "API Files" then b.apiFiles
  else if category = "Other" then b.other
  else []

/-- Embedding of `allFiles[category].push(fileInfo)`; `category` always comes from
`categorizeFileByPath`, so the final fall-through never fires. -/
def Buckets.push (b : Buckets) (category : String) (f : GroupedFile) : Buckets :=
  if category = "Pages" then { b with pages := b.pages ++ [f] }
  else if category = "Components" then { b with components := b.components ++ [f] }
  else if category = "UI Files" then { b with uiFiles := b.uiFiles ++ [f] }
  else if category = "API Files" then { b with apiFiles := b.apiFiles ++ [f] }
  else if category = "Other" then { b with other := b.other ++ [f] }
  else b

/-- Total number of files across the five buckets. -/
def Buckets.totalSize (b : Buckets) : Nat :=
  b.pages.length + b.components.length + b.uiFiles.length +
  b.apiFiles.length + b.other.length

/-- The comparison underlying `(a, b) => a.score - b.score`. -/
def scoreLE (a b : GroupedFile) : Prop :=
  a.score ≤ b.score

instance : DecidableRel scoreLE :=
  fun a b => inferInstanceAs (Decidable (a.score ≤ b.score))

instance : IsTotal GroupedFile scoreLE :=
  ⟨fun a b => Int.le_total a.score b.score⟩

instance : IsTrans GroupedFile scoreLE :=
  ⟨fun _ _ _ h1 h2 => le_trans h1 h2⟩

/-- Embedding of `allFiles[key].sort((a, b) => a.score - b.score)`:
ECMAScript `Array.prototype.sort` is required to be stable, and with
this comparator it produces the stable ascending reordering by `score`.
The stable sort of a list under a total transitive comparison is unique,
so any stable sorting algorithm is an exact embedding; insertion sort is
used because it is structurally recursive. -/
def sortByScore (l : List GroupedFile) : List GroupedFile :=
  List.insertionSort scoreLE l

/-- Sort every bucket (`Object.keys(allFiles).forEach(... sort ...)`). -/
def Buckets.sortAll (b : Buckets) : Buckets :=
  { pages := sortByScore b.pages
    components := sortByScore b.components
    uiFiles := sortByScore b.uiFiles
    apiFiles := sortByScore b.apiFiles
    other := sortByScore b.other }

/-- The `fileInfo` object built per file inside `getFilesGroupedByType`:
composite score, previous score via the `||` fallback, delta, owning
component name, and the `details` record, together with the spread
`...file`. -/
def mkGroupedFile (previousScores : String → Option Int) (componentName : String)
    (file : FileMetrics) : GroupedFile :=
  let avgScore := calculateFileAvgScore file
  let previousScore := Utils.orDefault (previousScores file.filepath) avgScore
  let scoreChange := avgScore - previousScore
  { file := file
    score := avgScore
    previousScore := previousScore
    scoreChange := scoreChange
    component := componentName
    details := Utils.detailsOf file }

/-- The `previousScores` record built inside `getFilesGroupedByType`:
nested `forEach` over the previous entry's components and files, each
iteration overwriting the entry at `file.filepath`. -/
def buildPreviousScoresEntry (entry : HealthHistoryEntry) : String → Option Int :=
  entry.results.components.foldl
    (fun m component => component.files.foldl Utils.assignScore m)
    (fun _ => none)

/-- Embedding of `getFilesGroupedByType` from ui/pages/CodeHealth.tsx:
`healthHistory[healthHistory.length - 1]` is `getLast?`,
`healthHistory[healthHistory.length - 2]` (when `length > 1`) is
`dropLast.getLast?`. -/
def getFilesGroupedByType (healthHistory : List HealthHistoryEntry) : Buckets :=
  match healthHistory.getLast? with
  | none => Buckets.empty
  | some latestEntry =>
    let previousScores : String → Option Int :=
      match healthHistory.dropLast.getLast? with
      | some previousEntry => buildPreviousScoresEntry previousEntry
      | none => fun _ => none
    let filled :=
      latestEntry.results.components.foldl
        (fun b component =>
          component.files.foldl
            (fun b file =>
              b.push (categorizeFileByPath file.filepath)
                (mkGroupedFile previousScores component.name file))
            b)
        Buckets.empty
    filled.sortAll

end CodeHealth.Dashboard

namespace CodeHealth

/- ## Claim-side definitions and witness data -/

/- ## Shared lemmas -/

/-- A score in the valid range [0, 100]. -/
def inRange (n : Int) : Prop :=
  0 ≤ n ∧ n ≤ 100

/- ## Observation lists for trend claims -/

/-- The file entries of a snapshot carrying the given filepath. -/
def fileOccurrences (e : HealthHistoryEntry) (fp : String) : List FileMetrics :=
  (entryFiles e).filter (fun f => decide (f.filepath = fp))

/-- The composite scores a snapshot contributes for the given filepath. -/
def entryScores (e : HealthHistoryEntry) (fp : String) : List Int :=
  (fileOccurrences e fp).map calculateFileAvgScore

/-- The chronological list of composite-score observations of a filepath
across the whole history (one per occurrence, snapshot by snapshot). -/
def fileObservations (healthHistory : List HealthHistoryEntry) (fp : String) : List Int :=
  healthHistory.flatMap (fun e => entryScores e fp)

/-- The number of snapshots in which the filepath appears. -/
def snapshotCount (healthHistory : List HealthHistoryEntry) (fp : String) : Nat :=
  (healthHistory.filter (fun e => !(fileOccurrences e fp).isEmpty)).length

/-- A file record whose six sub-scores all equal `s` (witness data). -/
def constFile (fp : String) (s : Int) : FileMetrics :=
  { filepath := fp
    size_score := s, complexity_score := s, duplication_score := s
    function_length_score := s, comment_density_score := s
    naming_convention_score := s, issues := [] }

/-- Build a `HealthHistoryEntry` with a single component holding the given
files (witness data). -/
def mkEntry (t : Int) (files : List FileMetrics) : HealthHistoryEntry :=
  { timestamp := t
    date := "2025-01-01"
    results :=
      { overall_score := 0
        components := [{ name := "UI", score := 0, files := files, issues := [] }]
        recommendations := [] } }

/-- Concrete instance of C1: the file with sub-scores
`{100, 100, 100, 100, 100, 99}` (the spec's rounding example, mean
99.83 → 100). -/
def c1SampleFile : FileMetrics :=
  { filepath := "ui/pages/A.tsx"
    size_score := 100, complexity_score := 100, duplication_score := 100
    function_length_score := 100, comment_density_score := 100
    naming_convention_score := 99, issues := [] }

/-- A record missing two of its six sub-scores. -/
def c6SampleFile : History.FileMetricsOpt :=
  { filepath := "ui/pages/B.tsx"
    size_score := some 90, complexity_score := none, duplication_score := some 90
    function_length_score := none, comment_density_score := some 90
    naming_convention_score := some 90, issues := [] }

/-- Concrete data for the C4 witness: one current file, a previous
snapshot not containing its filepath. -/
def c4CurrentFile : FileMetrics :=
  { filepath := "ui/pages/New.tsx"
    size_score := 80, complexity_score := 80, duplication_score := 80
    function_length_score := 80, comment_density_score := 80
    naming_convention_score := 80, issues := [] }

/-- The unrelated file of the previous snapshot in the C4 witness. -/
def c4PreviousFile : FileMetrics :=
  { filepath := "ui/pages/Old.tsx"
    size_score := 50, complexity_score := 50, duplication_score := 50
    function_length_score := 50, comment_density_score := 50
    naming_convention_score := 50, issues := [] }

/-- A processed view used in the C7 witness data. -/
def c7View : Utils.FileView :=
  { filepath := "ui/pages/A.tsx", score := 80, previousScore := 70, scoreChange := 10
    issues := []
    details :=
      { size := 80, complexity := 80, duplication := 80
        function_length := 80, comment_density := 80, naming_convention := 80 } }

/-- Witness sections: one non-empty bucket and one empty bucket. -/
def c7Sections : List (String × List Utils.FileView) :=
  [("Pages", [c7View]), ("Components", [])]

/-- Witness history for C8: a single snapshot with two page files whose
scores arrive out of order (80 before 30). -/
def c8History : List HealthHistoryEntry :=
  [mkEntry 1 [constFile "ui/pages/A.tsx" 80, constFile "ui/pages/B.tsx" 30]]

/-- Witness history for C10: two snapshots, the latest carrying three
files spread over two buckets. -/
def c10History : List HealthHistoryEntry :=
  [mkEntry 1 [constFile "ui/pages/A.tsx" 50],
   mkEntry 2 [constFile "ui/pages/A.tsx" 80, constFile "ui/components/B.tsx" 70,
              constFile "README.md" 90]]

/-- Witness history for C5: the same file observed in three snapshots
with composite scores 60, 70, 65. -/
def c5History : List HealthHistoryEntry :=
  [mkEntry 1 [constFile "ui/pages/A.tsx" 60],
   mkEntry 2 [constFile "ui/pages/A.tsx" 70],
   mkEntry 3 [constFile "ui/pages/A.tsx" 65]]

/-- Witness history with a single observation of file `"b"`. -/
def c5SingleHistory : List HealthHistoryEntry :=
  [mkEntry 1 [constFile "b" 50], mkEntry 2 [constFile "other" 40]]

end CodeHealth

namespace CodeHealth

/- ## Shared lemmas -/

/-- The embedding `mathRoundDiv` agrees with mathematical rounding
(`round q = ⌊q + 1/2⌋`, exactly JavaScript `Math.round`) of the exact
rational quotient. -/
theorem mathRoundDiv_eq_round (a : Int) (n : Nat) (hn : 0 < n) :
    mathRoundDiv a n = round ((a : ℚ) / (n : ℚ)) := by
  have hn0 : ((n : ℚ)) ≠ 0 := by
    exact_mod_cast Nat.pos_iff_ne_zero.mp hn
  rw [round_eq]
  have h1 : (a : ℚ) / (n : ℚ) + 1 / 2 = ((2 * a + (n : Int) : Int) : ℚ) / ((2 * n : ℕ) : ℚ) := by
    push_cast
    field_simp
    ring
  rw [h1, Rat.floor_intCast_div_natCast]
  unfold mathRoundDiv
  rw [Int.fdiv_eq_ediv _ (by positivity)]
  push_cast
  ring_nf

theorem calculateFileAvgScore_def (file : FileMetrics) :
    calculateFileAvgScore file = mathRoundDiv (sumScores file) 6 := rfl

/-- The composite score is the mathematical rounding of the exact mean of
the six sub-scores, for all integer inputs. -/
theorem calculateFileAvgScore_eq_round (file : FileMetrics) :
    calculateFileAvgScore file = round ((sumScores file : ℚ) / 6) := by
  rw [calculateFileAvgScore_def, mathRoundDiv_eq_round _ 6 (by norm_num)]
  norm_num

/-- The composite score written as Euclidean integer division. -/
theorem calculateFileAvgScore_eq_ediv (file : FileMetrics) :
    calculateFileAvgScore file = (2 * sumScores file + 6) / 12 := by
  rw [calculateFileAvgScore_def]
  unfold mathRoundDiv
  rw [Int.fdiv_eq_ediv _ (by norm_num)]
  norm_num

end CodeHealth

namespace CodeHealth.Utils

/- ## Lemmas about the previous-score index -/

/- ## Lemmas about the previous-score index -/

/-- Folding `assignScore` over files none of which carry the looked-up
filepath leaves the map unchanged at that key. -/
theorem foldl_assignScore_of_not_mem :
    ∀ (files : List FileMetrics) (m : String → Option Int) (fp : String),
      (∀ g ∈ files, g.filepath ≠ fp) →
      (files.foldl assignScore m) fp = m fp := by
  intro files
  induction files with
  | nil => intro m fp _; rfl
  | cons f rest ih =>
    intro m fp h
    have hne : f.filepath ≠ fp := h f (List.mem_cons_self f rest)
    have hrest : ∀ g ∈ rest, g.filepath ≠ fp := fun g hg => h g (List.mem_cons_of_mem f hg)
    simp only [List.foldl_cons]
    rw [ih (assignScore m f) fp hrest]
    unfold assignScore
    exact if_neg (fun hfp => hne hfp.symm)

/-- Folding `assignScore` over files containing exactly one file with
the looked-up filepath yields that file's composite score. -/
theorem foldl_assignScore_of_unique :
    ∀ (files : List FileMetrics) (m : String → Option Int) (fp : String) (g : FileMetrics),
      g ∈ files → g.filepath = fp →
      (∀ g2 ∈ files, g2.filepath = fp → g2 = g) →
      (files.foldl assignScore m) fp = some (calculateFileAvgScore g) := by
  intro files
  induction files with
  | nil => intro m fp g hg; exact absurd hg (List.not_mem_nil g)
  | cons f rest ih =>
    intro m fp g hg hgfp huniq
    simp only [List.foldl_cons]
    by_cases hrest : ∃ g2 ∈ rest, g2.filepath = fp
    · obtain ⟨g2, hg2mem, hg2fp⟩ := hrest
      have hg2g : g2 = g := huniq g2 (List.mem_cons_of_mem f hg2mem) hg2fp
      exact ih (assignScore m f) fp g (hg2g ▸ hg2mem) hgfp
        (fun g3 hg3 hfp3 => huniq g3 (List.mem_cons_of_mem f hg3) hfp3)
    · push_neg at hrest
      rw [foldl_assignScore_of_not_mem rest (assignScore m f) fp hrest]
      have hgf : g = f := by
        rcases List.mem_cons.mp hg with h | h
        · exact h
        · exact absurd hgfp (hrest g h)
      unfold assignScore
      subst hgf
      simp [hgfp.symm]

end CodeHealth.Utils

namespace CodeHealth.Dashboard

/- ## Lemmas about the bucket structure and the fileScores record -/

/- ## Lemmas about the bucket structure -/

/-- Every bucket obtained from the sorted structure is sorted by score
(unknown category names look up to the empty list). -/
theorem sorted_get_sortAll (b : Buckets) (category : String) :
    List.Sorted scoreLE ((b.sortAll).get category) := by
  unfold Buckets.get Buckets.sortAll sortByScore
  repeat' split
  all_goals first
    | exact List.sorted_insertionSort scoreLE _
    | exact List.sorted_nil

/-- Every bucket of `getFilesGroupedByType` is sorted by score. -/
theorem sorted_getFilesGroupedByType (healthHistory : List HealthHistoryEntry)
    (category : String) :
    List.Sorted scoreLE ((getFilesGroupedByType healthHistory).get category) := by
  unfold getFilesGroupedByType
  cases healthHistory.getLast? with
  | none =>
    show List.Sorted scoreLE (Buckets.empty.get category)
    unfold Buckets.empty Buckets.get
    repeat' split
    all_goals exact List.sorted_nil
  | some latestEntry =>
    exact sorted_get_sortAll _ category

/-- The dashboard categorizer always lands in one of the five fixed
bucket names. -/
theorem categorizeFileByPath_mem_five (filepath : String) :
    categorizeFileByPath filepath ∈
      (["Pages", "Components", "UI Files", "API Files", "Other"] : List String) := by
  unfold categorizeFileByPath
  repeat' split
  all_goals simp

/-- Pushing under any of the five category names grows the total bucket
size by exactly one. -/
theorem push_totalSize (b : Buckets) (f : GroupedFile) (category : String)
    (hcat : category ∈ (["Pages", "Components", "UI Files", "API Files", "Other"] : List String)) :
    (b.push category f).totalSize = b.totalSize + 1 := by
  fin_cases hcat <;> simp [Buckets.push, Buckets.totalSize] <;> omega

/-- Folding the per-file push over a component's files adds one slot per
file. -/
theorem foldl_push_files_totalSize (files : List FileMetrics)
    (previousScores : String → Option Int) (componentName : String) :
    ∀ b : Buckets,
      (files.foldl
        (fun b file =>
          b.push (categorizeFileByPath file.filepath)
            (mkGroupedFile previousScores componentName file))
        b).totalSize = b.totalSize + files.length := by
  induction files with
  | nil => intro b; simp
  | cons f rest ih =>
    intro b
    simp only [List.foldl_cons, List.length_cons]
    rw [ih, push_totalSize b _ _ (categorizeFileByPath_mem_five f.filepath)]
    omega

/-- Folding over all components adds one slot per file entry of the
snapshot. -/
theorem foldl_push_components_totalSize (comps : List ComponentResult)
    (previousScores : String → Option Int) :
    ∀ b : Buckets,
      (comps.foldl
        (fun b component =>
          component.files.foldl
            (fun b file =>
              b.push (categorizeFileByPath file.filepath)
                (mkGroupedFile previousScores component.name file))
            b)
        b).totalSize = b.totalSize + (comps.flatMap (fun c => c.files)).length := by
  induction comps with
  | nil => intro b; simp
  | cons c rest ih =>
    intro b
    simp only [List.foldl_cons, List.flatMap_cons, List.length_append]
    rw [ih, foldl_push_files_totalSize c.files previousScores c.name b]
    omega

/-- Sorting the buckets preserves the total size. -/
theorem sortAll_totalSize (b : Buckets) : (b.sortAll).totalSize = b.totalSize := by
  unfold Buckets.sortAll Buckets.totalSize sortByScore
  simp only [(List.perm_insertionSort scoreLE _).length_eq]

/- ## Characterizing the fileScores record -/

/-- Folding `pushScore` over a file list appends, at every filepath, the
composite scores of exactly the files carrying it, in order. -/
theorem foldl_pushScore_files :
    ∀ (files : List FileMetrics) (m : String → List Int) (fp : String),
      (files.foldl pushScore m) fp =
        m fp ++ (files.filter (fun f => decide (f.filepath = fp))).map calculateFileAvgScore := by
  intro files
  induction files with
  | nil => intro m fp; simp
  | cons f rest ih =>
    intro m fp
    simp only [List.foldl_cons]
    rw [ih (pushScore m f) fp]
    unfold pushScore
    by_cases hfp : fp = f.filepath
    · rw [if_pos hfp, List.filter_cons, if_pos (by simp [hfp])]
      simp [List.append_assoc]
    · rw [if_neg hfp, List.filter_cons,
        if_neg (by simp only [decide_eq_true_eq]; exact fun h => hfp h.symm)]

/-- Folding the per-component file folds appends the composite scores of
all matching files across the components, in order. -/
theorem foldl_pushScore_components :
    ∀ (comps : List ComponentResult) (m : String → List Int) (fp : String),
      (comps.foldl (fun m component => component.files.foldl pushScore m) m) fp =
        m fp ++ ((comps.flatMap (fun c => c.files)).filter
          (fun f => decide (f.filepath = fp))).map calculateFileAvgScore := by
  intro comps
  induction comps with
  | nil => intro m fp; simp
  | cons c rest ih =>
    intro m fp
    simp only [List.foldl_cons, List.flatMap_cons, List.filter_append, List.map_append]
    rw [ih, foldl_pushScore_files c.files m fp, List.append_assoc]

/-- Folding over the whole history appends, at every filepath, the full
chronological observation list. -/
theorem foldl_pushScore_entries :
    ∀ (entries : List HealthHistoryEntry) (m : String → List Int) (fp : String),
      (entries.foldl
        (fun m entry =>
          entry.results.components.foldl
            (fun m component => component.files.foldl pushScore m) m)
        m) fp =
        m fp ++ entries.flatMap (fun e => entryScores e fp) := by
  intro entries
  induction entries with
  | nil => intro m fp; simp
  | cons e rest ih =>
    intro m fp
    simp only [List.foldl_cons, List.flatMap_cons]
    rw [ih, foldl_pushScore_components e.results.components m fp, List.append_assoc]
    simp [entryScores, fileOccurrences, entryFiles]

/-- The `fileScores` record holds, at every filepath, exactly its
chronological observation list. -/
theorem collectFileScores_eq (healthHistory : List HealthHistoryEntry) (fp : String) :
    collectFileScores healthHistory fp = fileObservations healthHistory fp := by
  unfold collectFileScores fileObservations
  rw [foldl_pushScore_entries]
  simp

end CodeHealth.Dashboard

namespace CodeHealth

/-- When no snapshot carries a filepath more than once, the number of
observations equals the number of snapshots in which the filepath
appears. -/
theorem fileObservations_length_eq_snapshotCount
    (healthHistory : List HealthHistoryEntry) (fp : String)
    (huniq : ∀ e ∈ healthHistory, (fileOccurrences e fp).length ≤ 1) :
    (fileObservations healthHistory fp).length = snapshotCount healthHistory fp := by
  induction healthHistory with
  | nil => rfl
  | cons e rest ih =>
    have he : (fileOccurrences e fp).length ≤ 1 := huniq e (List.mem_cons_self e rest)
    have hrest : ∀ e2 ∈ rest, (fileOccurrences e2 fp).length ≤ 1 :=
      fun e2 h2 => huniq e2 (List.mem_cons_of_mem e h2)
    simp only [fileObservations, List.flatMap_cons, List.length_append, snapshotCount,
      List.filter_cons]
    have hscores : (entryScores e fp).length = (fileOccurrences e fp).length := by
      simp [entryScores]
    by_cases hocc : (fileOccurrences e fp).isEmpty
    · rw [if_neg (by simp [hocc])]
      have h0 : (fileOccurrences e fp).length = 0 := by
        simpa [List.isEmpty_iff, List.length_eq_zero] using hocc
      have := ih hrest
      simp only [fileObservations, snapshotCount] at this
      omega
    · rw [if_pos (by simp [hocc])]
      have h1 : (fileOccurrences e fp).length = 1 := by
        have : (fileOccurrences e fp).length ≠ 0 := by
          simpa [List.isEmpty_iff, List.length_eq_zero] using hocc
        omega
      have := ih hrest
      simp only [fileObservations, snapshotCount] at this
      simp only [List.length_cons]
      omega

/- ## Claim C1 -/

/-- Claim C1: For every `FileMetrics` whose six sub-scores are integers in
[0, 100], `calculateFileAvgScore` returns `round(sum / 6)` (JavaScript
`Math.round` of the exact mean), and the result is always an integer in
[0, 100]. -/
theorem claim_C1_composite_score (file : FileMetrics)
    (h1 : inRange file.size_score) (h2 : inRange file.complexity_score)
    (h3 : inRange file.duplication_score) (h4 : inRange file.function_length_score)
    (h5 : inRange file.comment_density_score) (h6 : inRange file.naming_convention_score) :
    calculateFileAvgScore file = round ((sumScores file : ℚ) / 6) ∧
    0 ≤ calculateFileAvgScore file ∧ calculateFileAvgScore file ≤ 100 := by
  obtain ⟨h1a, h1b⟩ := h1
  obtain ⟨h2a, h2b⟩ := h2
  obtain ⟨h3a, h3b⟩ := h3
  obtain ⟨h4a, h4b⟩ := h4
  obtain ⟨h5a, h5b⟩ := h5
  obtain ⟨h6a, h6b⟩ := h6
  refine ⟨calculateFileAvgScore_eq_round file, ?_, ?_⟩ <;>
    rw [calculateFileAvgScore_eq_ediv] <;>
    unfold sumScores <;>
    omega

/-- Witness for C1 at a concrete input. -/
theorem claim_C1_composite_score_witness :
    (calculateFileAvgScore c1SampleFile = round ((sumScores c1SampleFile : ℚ) / 6) ∧
      0 ≤ calculateFileAvgScore c1SampleFile ∧ calculateFileAvgScore c1SampleFile ≤ 100) ∧
    calculateFileAvgScore c1SampleFile = 100 :=
  ⟨claim_C1_composite_score c1SampleFile (by constructor <;> decide)
      (by constructor <;> decide) (by constructor <;> decide)
      (by constructor <;> decide) (by constructor <;> decide)
      (by constructor <;> decide),
   by decide⟩

/- ## Claim C2 -/

/-- Claim C2: The history page's `categorizeFileByPath` is total — every
filepath maps to exactly one of the five labels — and the API patterns
are checked first: whenever the normalized path satisfies the API
disjunction (`app/apis/`, `src/app/apis/`, `apis/`, the two
`apis/<segment>/...py` regexes, `api/<segment>`, or `/api/`), the result
is `"API Files"` even if the path also contains `/pages/`,
`/components/` or `/utils/`; otherwise `/pages/` gives `"Pages"`, then
`/components/` gives `"Components"`, then `/utils/` or `/src/utils/`
gives `"UI Files"`, and `"Other"` is the catch-all default. -/
theorem claim_C2_categorize_api_first (filepath : String) :
    (History.categorizeFileByPath filepath ∈
      (["Pages", "Components", "UI Files", "API Files", "Other"] : List String)) ∧
    (History.isApiIndicating (History.stripLeadingSlashes filepath.data) = true →
      History.categorizeFileByPath filepath = "API Files") ∧
    (History.isApiIndicating (History.stripLeadingSlashes filepath.data) = false →
      ((containsSub "/pages/".data (History.stripLeadingSlashes filepath.data) = true →
          History.categorizeFileByPath filepath = "Pages") ∧
       (containsSub "/pages/".data (History.stripLeadingSlashes filepath.data) = false →
          containsSub "/components/".data (History.stripLeadingSlashes filepath.data) = true →
          History.categorizeFileByPath filepath = "Components") ∧
       (containsSub "/pages/".data (History.stripLeadingSlashes filepath.data) = false →
          containsSub "/components/".data (History.stripLeadingSlashes filepath.data) = false →
          (containsSub "/utils/".data (History.stripLeadingSlashes filepath.data) = true ∨
           containsSub "/src/utils/".data (History.stripLeadingSlashes filepath.data) = true) →
          History.categorizeFileByPath filepath = "UI Files") ∧
       (containsSub "/pages/".data (History.stripLeadingSlashes filepath.data) = false →
          containsSub "/components/".data (History.stripLeadingSlashes filepath.data) = false →
          containsSub "/utils/".data (History.stripLeadingSlashes filepath.data) = false →
          containsSub "/src/utils/".data (History.stripLeadingSlashes filepath.data) = false →
          History.categorizeFileByPath filepath = "Other"))) := by
  unfold History.categorizeFileByPath
  dsimp only
  refine ⟨?_, ?_, ?_⟩
  · split <;> [skip; split] <;> [skip; skip; split] <;> [skip; skip; skip; split] <;> simp
  · intro h
    simp [h]
  · intro h
    refine ⟨?_, ?_, ?_, ?_⟩
    · intro hp
      simp [h, hp]
    · intro hp hc
      simp [h, hp, hc]
    · intro hp hc hu
      rcases hu with hu | hu <;> simp [h, hp, hc, hu]
    · intro hp hc hu hsu
      simp [h, hp, hc, hu, hsu]

/-- Witness for C2: a path that matches both an API pattern and
`/pages/` is still categorized as `"API Files"` (API patterns are checked
first), and a non-API path containing `/pages/` is `"Pages"`. -/
theorem claim_C2_categorize_api_first_witness :
    (History.isApiIndicating (History.stripLeadingSlashes ("app/apis/pages/foo.py" : String).data) = true ∧
      History.categorizeFileByPath "app/apis/pages/foo.py" = "API Files") ∧
    (History.isApiIndicating (History.stripLeadingSlashes ("ui/pages/Home.tsx" : String).data) = false ∧
      History.categorizeFileByPath "ui/pages/Home.tsx" = "Pages") :=
  ⟨⟨by decide, (claim_C2_categorize_api_first "app/apis/pages/foo.py").2.1 (by decide)⟩,
   ⟨by decide, ((claim_C2_categorize_api_first "ui/pages/Home.tsx").2.2 (by decide)).1 (by decide)⟩⟩

/- ## Claim C3 -/

/-- Claim C3, counterexample to the claim as stated: A file present in
both snapshots whose previous composite score is 0 does *not* get
`previousScore` equal to the previous composite score: the JavaScript
lookup `previousScores[filepath] || avgScore` treats the falsy score 0
like an absent entry, so the view reports `previousScore = 60` (its own
current score) and `scoreChange = 0` instead of `previousScore = 0`,
`scoreChange = 60`. -/
theorem claim_C3_previous_snapshot_delta_counterexample :
    calculateFileAvgScore (constFile "ui/pages/A.tsx" 0) = 0 ∧
    (constFile "ui/pages/A.tsx" 0).filepath = (constFile "ui/pages/A.tsx" 60).filepath ∧
    ¬ (∃ view : Utils.FileView,
        (Utils.processFilesData [constFile "ui/pages/A.tsx" 60]
          (some [constFile "ui/pages/A.tsx" 0]))[0]? = some view ∧
        view.previousScore = calculateFileAvgScore (constFile "ui/pages/A.tsx" 0) ∧
        view.scoreChange =
          calculateFileAvgScore (constFile "ui/pages/A.tsx" 60) -
          calculateFileAvgScore (constFile "ui/pages/A.tsx" 0)) := by
  refine ⟨by decide, by decide, ?_⟩
  rintro ⟨view, hview, hprev, hchange⟩
  have hcomp :
      (Utils.processFilesData [constFile "ui/pages/A.tsx" 60]
        (some [constFile "ui/pages/A.tsx" 0]))[0]? =
      some { filepath := "ui/pages/A.tsx", score := 60, previousScore := 60, scoreChange := 0
             issues := []
             details :=
               { size := 60, complexity := 60, duplication := 60
                 function_length := 60, comment_density := 60
                 naming_convention := 60 } } := by decide
  rw [hcomp] at hview
  obtain rfl := (Option.some.injEq _ _).mp hview
  exact absurd hprev (by decide)

/-- Claim C3 as amended: For every file of the current snapshot whose
filepath is also carried by exactly one file of the previous snapshot
and whose *previous composite score is nonzero*, the produced view has
`previousScore` equal to the previous snapshot's composite score for
that filepath and `scoreChange` equal to the current composite score
minus the previous one; the delta can be negative, zero, or positive.
(When the previous composite score is 0, the JavaScript `||` fallback
reports `previousScore = score` and `scoreChange = 0` instead.) -/
theorem claim_C3_previous_snapshot_delta :
    (∀ (currentFiles previousFiles : List FileMetrics) (i : Nat)
       (file prevFile : FileMetrics),
       currentFiles[i]? = some file →
       prevFile ∈ previousFiles →
       prevFile.filepath = file.filepath →
       (∀ g ∈ previousFiles, g.filepath = file.filepath → g = prevFile) →
       calculateFileAvgScore prevFile ≠ 0 →
       ∃ view : Utils.FileView,
         (Utils.processFilesData currentFiles (some previousFiles))[i]? = some view ∧
         view.filepath = file.filepath ∧
         view.previousScore = calculateFileAvgScore prevFile ∧
         view.scoreChange =
           calculateFileAvgScore file - calculateFileAvgScore prevFile) ∧
    (∃ view : Utils.FileView,
      view ∈ Utils.processFilesData [constFile "a" 50] (some [constFile "a" 80]) ∧
      view.scoreChange < 0) ∧
    (∃ view : Utils.FileView,
      view ∈ Utils.processFilesData [constFile "a" 80] (some [constFile "a" 80]) ∧
      view.scoreChange = 0) ∧
    (∃ view : Utils.FileView,
      view ∈ Utils.processFilesData [constFile "a" 90] (some [constFile "a" 80]) ∧
      0 < view.scoreChange) := by
  refine ⟨?_, ?_, ?_, ?_⟩
  · intro currentFiles previousFiles i file prevFile hfile hprev hfp huniq hnz
    have hidx : Utils.buildPreviousScores previousFiles file.filepath =
        some (calculateFileAvgScore prevFile) := by
      unfold Utils.buildPreviousScores
      exact Utils.foldl_assignScore_of_unique previousFiles _ file.filepath prevFile
        hprev hfp huniq
    simp only [Utils.processFilesData, List.getElem?_map, hfile, Option.map_some]
    refine ⟨_, rfl, rfl, ?_, ?_⟩
    · simp [hidx, Utils.orDefault, hnz]
    · simp [hidx, Utils.orDefault, hnz]
  · exact ⟨_, by exact List.mem_cons_self _ _, by decide⟩
  · exact ⟨_, by exact List.mem_cons_self _ _, by decide⟩
  · exact ⟨_, by exact List.mem_cons_self _ _, by decide⟩

/-- Witness for the amended C3 at a concrete input: file present in both
snapshots with previous composite score 80 (nonzero) and current 90. -/
theorem claim_C3_previous_snapshot_delta_witness :
    ∃ view : Utils.FileView,
      (Utils.processFilesData [constFile "ui/pages/A.tsx" 90]
        (some [constFile "ui/pages/A.tsx" 80]))[0]? = some view ∧
      view.filepath = (constFile "ui/pages/A.tsx" 90).filepath ∧
      view.previousScore = calculateFileAvgScore (constFile "ui/pages/A.tsx" 80) ∧
      view.scoreChange =
        calculateFileAvgScore (constFile "ui/pages/A.tsx" 90) -
        calculateFileAvgScore (constFile "ui/pages/A.tsx" 80) :=
  claim_C3_previous_snapshot_delta.1 [constFile "ui/pages/A.tsx" 90]
    [constFile "ui/pages/A.tsx" 80] 0 (constFile "ui/pages/A.tsx" 90)
    (constFile "ui/pages/A.tsx" 80) (by decide) (List.mem_cons_self _ _) (by decide)
    (by decide) (by decide)

/- ## Claim C4 -/

/-- Claim C4: For every file of the current snapshot whose filepath does
not occur in the previous snapshot — or when no previous snapshot
exists — `processFilesData` produces a view whose `previousScore` equals
the file's own current composite score and whose `scoreChange` is
exactly 0 (it is a total integer field: never undefined, never a
spurious delta). -/
theorem claim_C4_first_appearance_zero_change
    (currentFiles previousFiles : List FileMetrics) (i : Nat) (file : FileMetrics)
    (hfile : currentFiles[i]? = some file)
    (habsent : ∀ g ∈ previousFiles, g.filepath ≠ file.filepath) :
    (∃ view : Utils.FileView,
      (Utils.processFilesData currentFiles (some previousFiles))[i]? = some view ∧
      view.filepath = file.filepath ∧
      view.previousScore = calculateFileAvgScore file ∧
      view.scoreChange = 0) ∧
    (∃ view : Utils.FileView,
      (Utils.processFilesData currentFiles none)[i]? = some view ∧
      view.filepath = file.filepath ∧
      view.previousScore = calculateFileAvgScore file ∧
      view.scoreChange = 0) := by
  have hidx : Utils.buildPreviousScores previousFiles file.filepath = none := by
    unfold Utils.buildPreviousScores
    exact Utils.foldl_assignScore_of_not_mem previousFiles _ file.filepath habsent
  constructor
  · simp only [Utils.processFilesData, List.getElem?_map, hfile, Option.map_some]
    refine ⟨_, rfl, rfl, ?_, ?_⟩
    · simp [hidx, Utils.orDefault]
    · simp [hidx, Utils.orDefault]
  · simp only [Utils.processFilesData, List.getElem?_map, hfile, Option.map_some]
    refine ⟨_, rfl, rfl, ?_, ?_⟩
    · simp [Utils.orDefault]
    · simp [Utils.orDefault]

/-- Witness for C4 at a concrete input. -/
theorem claim_C4_first_appearance_zero_change_witness :
    (∃ view : Utils.FileView,
      (Utils.processFilesData [c4CurrentFile] (some [c4PreviousFile]))[0]? = some view ∧
      view.filepath = c4CurrentFile.filepath ∧
      view.previousScore = calculateFileAvgScore c4CurrentFile ∧
      view.scoreChange = 0) ∧
    (∃ view : Utils.FileView,
      (Utils.processFilesData [c4CurrentFile] none)[0]? = some view ∧
      view.filepath = c4CurrentFile.filepath ∧
      view.previousScore = calculateFileAvgScore c4CurrentFile ∧
      view.scoreChange = 0) :=
  claim_C4_first_appearance_zero_change [c4CurrentFile] [c4PreviousFile] 0 c4CurrentFile
    (by decide) (by decide)

/- ## Claim C5 -/

/-- Claim C5: `calculateFileTrends` collects, for each filepath, its
composite score from every snapshot in which it appears, in
chronological order (assuming, as the data model does, that no single
snapshot carries the same filepath more than once).  A filepath observed
in fewer than two snapshots gets no trend (absent, not zero); a filepath
observed in two or more snapshots gets a trend whose magnitude is the
last observed score minus the first observed score (intermediate
observations ignored), with direction up/down/neutral as that magnitude
is positive/negative/zero. -/
theorem claim_C5_file_trends (healthHistory : List HealthHistoryEntry) (fp : String)
    (huniq : ∀ e ∈ healthHistory, (fileOccurrences e fp).length ≤ 1) :
    (snapshotCount healthHistory fp < 2 →
      Dashboard.calculateFileTrends healthHistory fp = none) ∧
    (2 ≤ snapshotCount healthHistory fp →
      ∃ firstScore latestScore : Int,
        (fileObservations healthHistory fp).head? = some firstScore ∧
        (fileObservations healthHistory fp).getLast? = some latestScore ∧
        Dashboard.calculateFileTrends healthHistory fp =
          some
            { trend :=
                if 0 < latestScore - firstScore then Dashboard.TrendDir.up
                else if latestScore - firstScore < 0 then Dashboard.TrendDir.down
                else Dashboard.TrendDir.neutral
              change := latestScore - firstScore }) := by
  have hobslen := fileObservations_length_eq_snapshotCount healthHistory fp huniq
  have hcollect := Dashboard.collectFileScores_eq healthHistory fp
  constructor
  · intro hlt
    unfold Dashboard.calculateFileTrends
    by_cases hlen : healthHistory.length ≤ 1
    · rw [if_pos hlen]
    · rw [if_neg hlen]
      have hnot : ¬ 1 < (Dashboard.collectFileScores healthHistory fp).length := by
        rw [hcollect, hobslen]
        omega
      simp only [if_neg hnot]
  · intro hge
    have hcount_le : snapshotCount healthHistory fp ≤ healthHistory.length :=
      List.length_filter_le _ healthHistory
    have hlen : ¬ healthHistory.length ≤ 1 := by omega
    have h1lt : 1 < (fileObservations healthHistory fp).length := by omega
    cases hobs : fileObservations healthHistory fp with
    | nil => rw [hobs] at h1lt; simp at h1lt
    | cons a t =>
      have hne : (a :: t) ≠ ([] : List Int) := by simp
      refine ⟨a, (a :: t).getLast hne, rfl, List.getLast?_eq_getLast _ hne, ?_⟩
      unfold Dashboard.calculateFileTrends
      rw [if_neg hlen]
      simp only [hcollect, hobs]
      rw [if_pos (by rw [hobs] at h1lt; exact h1lt)]
      simp [List.getLastD_eq_getLast?, List.getLast?_eq_getLast _ hne]

/-- Witness for C5 at concrete inputs: scores `[60, 70, 65]` produce an
upward trend of magnitude 5 (the intermediate 70 is ignored), and a file
seen in fewer than two snapshots produces no trend. -/
theorem claim_C5_file_trends_witness :
    (∃ firstScore latestScore : Int,
      (fileObservations c5History "ui/pages/A.tsx").head? = some firstScore ∧
      (fileObservations c5History "ui/pages/A.tsx").getLast? = some latestScore ∧
      Dashboard.calculateFileTrends c5History "ui/pages/A.tsx" =
        some
          { trend :=
              if 0 < latestScore - firstScore then Dashboard.TrendDir.up
              else if latestScore - firstScore < 0 then Dashboard.TrendDir.down
              else Dashboard.TrendDir.neutral
            change := latestScore - firstScore }) ∧
    Dashboard.calculateFileTrends c5History "ui/pages/A.tsx" =
      some { trend := Dashboard.TrendDir.up, change := 5 } ∧
    Dashboard.calculateFileTrends c5SingleHistory "b" = none :=
  ⟨(claim_C5_file_trends c5History "ui/pages/A.tsx" (by decide)).2 (by decide),
   by decide,
   (claim_C5_file_trends c5SingleHistory "b" (by decide)).1 (by decide)⟩

/- ## Claim C6 -/

/-- Claim C6: For every file record in which one or more of the six
sub-scores is absent, the history page's `calculateFileAvgScore` treats
each absent sub-score as 0 (the `|| 0` coalescing) and still returns a
well-defined integer mean: it agrees with the plain composite score of
the zero-filled record, which is `round(sum / 6)` of the coalesced
sub-scores — an absent sub-score never propagates as a non-numeric
result. -/
theorem claim_C6_missing_scores_coalesce (file : History.FileMetricsOpt)
    (_hmissing :
      file.size_score = none ∨ file.complexity_score = none ∨
      file.duplication_score = none ∨ file.function_length_score = none ∨
      file.comment_density_score = none ∨ file.naming_convention_score = none) :
    History.calculateFileAvgScore file = calculateFileAvgScore (History.zeroFilled file) ∧
    History.calculateFileAvgScore file =
      round ((sumScores (History.zeroFilled file) : ℚ) / 6) := by
  have hsum :
      History.calculateFileAvgScore file = calculateFileAvgScore (History.zeroFilled file) := by
    unfold History.calculateFileAvgScore calculateFileAvgScore History.zeroFilled
    simp [List.foldl]
  exact ⟨hsum, hsum.trans (calculateFileAvgScore_eq_round _)⟩

/-- Witness for C6 at a concrete input (two sub-scores absent, coalesced
to 0: mean of `{90, 0, 90, 0, 90, 90}` is 60). -/
theorem claim_C6_missing_scores_coalesce_witness :
    (History.calculateFileAvgScore c6SampleFile =
        calculateFileAvgScore (History.zeroFilled c6SampleFile) ∧
      History.calculateFileAvgScore c6SampleFile =
        round ((sumScores (History.zeroFilled c6SampleFile) : ℚ) / 6)) ∧
    History.calculateFileAvgScore c6SampleFile = 60 :=
  ⟨claim_C6_missing_scores_coalesce c6SampleFile (Or.inr (Or.inl rfl)),
   by decide⟩

/- ## Claim C7 -/

/-- Claim C7: Empty category buckets are omitted entirely from what the
accordion produces: removing the empty buckets beforehand changes
nothing (their entries render `null`), and every produced section comes
from a non-empty bucket — its file count is positive and its averages
(`avgScore`, `avgPrevScore`, and their difference `scoreChange`) are
computed with that positive count as denominator, never over an empty
bucket (no NaN). -/
theorem claim_C7_empty_buckets_omitted (sections : List (String × List Utils.FileView)) :
    History.renderSections (sections.filter (fun p => !p.2.isEmpty)) =
      History.renderSections sections ∧
    (∀ r ∈ History.renderSections sections,
      ∃ p : String × List Utils.FileView, p ∈ sections ∧ p.1 = r.name ∧ p.2 ≠ [] ∧
        r.fileCount = p.2.length ∧ 0 < r.fileCount ∧
        r.avgScore =
          mathRoundDiv (p.2.foldl (fun sum file => sum + file.score) 0) p.2.length ∧
        r.avgPrevScore =
          mathRoundDiv
            (p.2.foldl (fun sum file => sum + History.jsOrInt file.previousScore file.score) 0)
            p.2.length ∧
        r.scoreChange = r.avgScore - r.avgPrevScore) := by
  constructor
  · induction sections with
    | nil => rfl
    | cons p rest ih =>
      by_cases hp : p.2 = []
      · rw [List.filter_cons, if_neg (by simp [hp])]
        rw [ih]
        unfold History.renderSections
        rw [List.filterMap_cons]
        simp [hp]
      · rw [List.filter_cons, if_pos (by simp [hp])]
        unfold History.renderSections
        rw [List.filterMap_cons, List.filterMap_cons]
        have hlen : ¬ p.2.length = 0 := by simpa [List.length_eq_zero] using hp
        simp only [if_neg hlen]
        unfold History.renderSections at ih
        rw [ih]
  · intro r hr
    unfold History.renderSections at hr
    obtain ⟨p, hpmem, hfp⟩ := List.mem_filterMap.mp hr
    refine ⟨p, hpmem, ?_⟩
    by_cases hlen : p.2.length = 0
    · simp [hlen] at hfp
    · simp only [if_neg hlen] at hfp
      obtain rfl := (Option.some.injEq _ _).mp hfp
      exact ⟨rfl, by simpa [List.length_eq_zero] using hlen, rfl,
        Nat.pos_of_ne_zero hlen, rfl, rfl, rfl⟩

/-- Witness for C7 at concrete sections: the empty `"Components"` bucket
is dropped (only `"Pages"` renders), and the rendered section satisfies
the theorem's description. -/
theorem claim_C7_empty_buckets_omitted_witness :
    (History.renderSections (c7Sections.filter (fun p => !p.2.isEmpty)) =
      History.renderSections c7Sections) ∧
    (∃ p : String × List Utils.FileView, p ∈ c7Sections ∧
      p.1 = ("Pages" : String) ∧ p.2 ≠ [] ∧
      (1 : Nat) = p.2.length ∧ 0 < (1 : Nat) ∧
      (80 : Int) =
        mathRoundDiv (p.2.foldl (fun sum file => sum + file.score) 0) p.2.length ∧
      (70 : Int) =
        mathRoundDiv
          (p.2.foldl (fun sum file => sum + History.jsOrInt file.previousScore file.score) 0)
          p.2.length ∧
      (10 : Int) = (80 : Int) - (70 : Int)) ∧
    History.renderSections c7Sections =
      [{ name := "Pages", fileCount := 1, avgScore := 80, avgPrevScore := 70
         scoreChange := 10 }] :=
  ⟨(claim_C7_empty_buckets_omitted c7Sections).1,
   (claim_C7_empty_buckets_omitted c7Sections).2
     { name := "Pages", fileCount := 1, avgScore := 80, avgPrevScore := 70, scoreChange := 10 }
     (by decide),
   by decide⟩

/- ## Claim C8 -/

/-- Claim C8: In the grouped output of `getFilesGroupedByType`, the files
inside every category bucket are sorted ascending by composite score
(worst first): at any two consecutive positions of the same bucket, the
earlier file's score is less than or equal to the later file's. -/
theorem claim_C8_buckets_sorted_by_score (healthHistory : List HealthHistoryEntry)
    (category : String) (i : Nat)
    (hi : i < ((Dashboard.getFilesGroupedByType healthHistory).get category).length)
    (hsucc : i + 1 < ((Dashboard.getFilesGroupedByType healthHistory).get category).length) :
    ((((Dashboard.getFilesGroupedByType healthHistory).get category).get ⟨i, hi⟩)).score ≤
    ((((Dashboard.getFilesGroupedByType healthHistory).get category).get ⟨i + 1, hsucc⟩)).score := by
  have hs := Dashboard.sorted_getFilesGroupedByType healthHistory category
  have hpair := List.pairwise_iff_getElem.mp hs i (i + 1) hi hsucc (Nat.lt_succ_self i)
  simpa [List.get_eq_getElem, Dashboard.scoreLE] using hpair

/-- Witness for C8 at a concrete input: the `"Pages"` bucket ends up
`[30, 80]`. -/
theorem claim_C8_buckets_sorted_by_score_witness :
    ((((Dashboard.getFilesGroupedByType c8History).get "Pages").get ⟨0, by decide⟩)).score ≤
      ((((Dashboard.getFilesGroupedByType c8History).get "Pages").get ⟨1, by decide⟩)).score ∧
    ((Dashboard.getFilesGroupedByType c8History).get "Pages").map (fun g => g.score) =
      [30, 80] :=
  ⟨claim_C8_buckets_sorted_by_score c8History "Pages" 0 (by decide) (by decide), by decide⟩

/- ## Claim C9 -/

/-- Claim C9: The aggregation operations (`processFilesData`,
`getFilesGroupedByType`, `calculateFileTrends`) are pure and
deterministic: two runs over equal snapshot inputs produce equal
outputs.  The absence of side effects on the inputs is intrinsic to the
embedding: each operation is a function of its arguments alone over
immutable values — it reads no shared mutable state and returns freshly
built views, which is what makes this functional embedding of the
source possible at all. -/
theorem claim_C9_aggregation_deterministic :
    (∀ (cur1 cur2 : List FileMetrics) (prev1 prev2 : Option (List FileMetrics)),
      cur1 = cur2 → prev1 = prev2 →
      Utils.processFilesData cur1 prev1 = Utils.processFilesData cur2 prev2) ∧
    (∀ h1 h2 : List HealthHistoryEntry, h1 = h2 →
      Dashboard.getFilesGroupedByType h1 = Dashboard.getFilesGroupedByType h2) ∧
    (∀ h1 h2 : List HealthHistoryEntry, h1 = h2 →
      Dashboard.calculateFileTrends h1 = Dashboard.calculateFileTrends h2) := by
  refine ⟨?_, ?_, ?_⟩ <;> intros <;> subst_vars <;> rfl

/-- Witness for C9 at concrete equal inputs. -/
theorem claim_C9_aggregation_deterministic_witness :
    Utils.processFilesData [constFile "a" 50] (some [constFile "a" 80]) =
      Utils.processFilesData [constFile "a" 50] (some [constFile "a" 80]) ∧
    Dashboard.getFilesGroupedByType [mkEntry 1 [constFile "a" 50]] =
      Dashboard.getFilesGroupedByType [mkEntry 1 [constFile "a" 50]] ∧
    Dashboard.calculateFileTrends [mkEntry 1 [constFile "a" 50]] =
      Dashboard.calculateFileTrends [mkEntry 1 [constFile "a" 50]] :=
  ⟨claim_C9_aggregation_deterministic.1 [constFile "a" 50] [constFile "a" 50]
      (some [constFile "a" 80]) (some [constFile "a" 80]) rfl rfl,
   claim_C9_aggregation_deterministic.2.1 [mkEntry 1 [constFile "a" 50]]
      [mkEntry 1 [constFile "a" 50]] rfl,
   claim_C9_aggregation_deterministic.2.2 [mkEntry 1 [constFile "a" 50]]
      [mkEntry 1 [constFile "a" 50]] rfl⟩

/- ## Claim C10 -/

/-- Claim C10: `getFilesGroupedByType` partitions the latest snapshot's
file entries: every file entry of every component of the latest snapshot
is placed in exactly one of the five buckets, so the sum of the five
bucket sizes equals the total number of file entries across all
components of the latest snapshot. -/
theorem claim_C10_buckets_partition (healthHistory : List HealthHistoryEntry)
    (latestEntry : HealthHistoryEntry)
    (hlast : healthHistory.getLast? = some latestEntry) :
    (Dashboard.getFilesGroupedByType healthHistory).totalSize =
      (entryFiles latestEntry).length := by
  unfold Dashboard.getFilesGroupedByType
  rw [hlast]
  dsimp only
  rw [Dashboard.sortAll_totalSize,
    Dashboard.foldl_push_components_totalSize _ _ Dashboard.Buckets.empty]
  simp [Dashboard.Buckets.empty, Dashboard.Buckets.totalSize, entryFiles]

/-- Witness for C10 at a concrete input: 3 files, bucket sizes sum to 3. -/
theorem claim_C10_buckets_partition_witness :
    (Dashboard.getFilesGroupedByType c10History).totalSize =
      (entryFiles (mkEntry 2 [constFile "ui/pages/A.tsx" 80,
        constFile "ui/components/B.tsx" 70, constFile "README.md" 90])).length ∧
    (Dashboard.getFilesGroupedByType c10History).totalSize = 3 :=
  ⟨claim_C10_buckets_partition c10History _ (by decide), by decide⟩

end CodeHealth
